import Mathlib

/-!
# DSVP (Dead Simple Video Player) — verification of the specification against the code

A shallow embedding of the playback-synchronization core of DSVP
(`player.c`, `audio.c`, `subtitle.c`, `main.c`) together with proofs of the
behavioural claims made by the specification.

Modelling conventions:
* C `double` values (clocks, delays, timestamps in seconds) are modelled as `ℚ`.
* An `AVPacket` is modelled by `Packet`: its queue-relevant fields
  (`stream_index`, `size`, `pts`, `duration`) plus oracles describing what the
  external FFmpeg codecs produce when the packet is decoded (`frames` for the
  audio decoder, `cue` for the subtitle decoder, `send_ok` for
  `avcodec_send_packet`).  FFmpeg and SDL are external collaborators per the
  spec, so their results enter the model as data carried by the inputs.
* The thread-safe `PacketQueue` is modelled functionally: the mutex/condvar
  machinery serialises operations, so each operation is a pure state
  transformer.  A pop that would block (block = 1, queue empty, no abort) is
  represented by the distinguished result `PopResult.blocked`: it does not
  return to its caller until the queue changes.
* Allocation (`av_malloc`, `av_packet_alloc`) is modelled as succeeding.
-/

namespace DSVP

/-- Resampled audio produced by the external codec/resampler for one decoded
frame: the frame's presentation timestamp (`AV_NOPTS_VALUE` is `none`), the
resampled bytes placed in `audio_buf` (in the source, `4 * converted` bytes of
signed 16-bit stereo; `data_size` is their count), and the `swr_convert`
return value `converted` (sample count, negative on resample error). -/
structure AFrame where
  pts : Option Int
  bytes : List Int
  converted : Int
  deriving Repr, DecidableEq

/-- Text cue produced by `avcodec_decode_subtitle2` for one subtitle packet:
the `start_display_time` / `end_display_time` fields (milliseconds) and the
text extracted from the rects (after ASS markup stripping).  A packet whose
decode fails or yields no rects carries no `SubCue` (see `Packet.cue`). -/
structure SubCue where
  start_display_time : Nat
  end_display_time : Nat
  text : String
  deriving Repr, DecidableEq

/-- An `AVPacket` as routed through the player, together with the decode
oracles for the external codecs (what FFmpeg would produce from its data). -/
structure Packet where
  stream_index : Int
  size : Int
  pts : Option Int
  duration : Int
  send_ok : Bool
  frames : List AFrame
  cue : Option SubCue
  deriving Repr, DecidableEq

/-- `PacketQueue` from `dsvp.h`: the linked list of nodes is the `items` list
(front = `first`), plus the `nb_packets` / `size` counters and the one-way
`abort_request` flag.  The mutex and condition variable serialise access and
are not part of the functional state. -/
structure PacketQueue where
  items : List Packet
  nb_packets : Int
  size : Int
  abort_request : Bool
  deriving Repr, DecidableEq

/-- `pq_init`: zeroed queue (`memset(q, 0, sizeof *q)`). -/
def pq_init : PacketQueue :=
  { items := [], nb_packets := 0, size := 0, abort_request := false }

/-- `pq_put`: append the packet at the tail, bump `nb_packets`, add the
packet's payload size to `size`, wake one waiter.  Node allocation is
modelled as succeeding, so the function always takes the success path. -/
def pq_put (q : PacketQueue) (pkt : Packet) : PacketQueue :=
  { q with
    items := q.items ++ [pkt]
    nb_packets := q.nb_packets + 1
    size := q.size + pkt.size }

/-- Result of `pq_get`: `got` is the C return value 1 (a packet moved out),
`empty` is 0 (non-blocking, nothing available), `aborted` is -1.  `blocked`
stands for the `SDL_CondWait` branch taken by a blocking pop on an empty,
non-aborted queue: the call has not returned. -/
inductive PopResult where
  | got (pkt : Packet)
  | empty
  | aborted
  | blocked
  deriving Repr, DecidableEq

/-- `pq_get`: abort is checked first; then the front node is removed if
present (decrementing the counters); otherwise a non-blocking call reports
`empty` while a blocking call waits on the condition variable. -/
def pq_get (q : PacketQueue) (block : Bool) : PopResult × PacketQueue :=
  if q.abort_request then
    (PopResult.aborted, q)
  else
    match q.items with
    | [] => if block then (PopResult.blocked, q) else (PopResult.empty, q)
    | pkt :: rest =>
        (PopResult.got pkt,
          { q with
            items := rest
            nb_packets := q.nb_packets - 1
            size := q.size - pkt.size })

/-- `pq_flush`: free every node, reset head/tail and both counters.  The
`abort_request` flag is not touched. -/
def pq_flush (q : PacketQueue) : PacketQueue :=
  { q with items := [], nb_packets := 0, size := 0 }

/-- One client operation on a `PacketQueue` (the operations quantified over
by the queue-counter invariant claim). -/
inductive QOp where
  | push (pkt : Packet)
  | pop (block : Bool)
  | flush
  deriving Repr, DecidableEq

/-- Apply one operation to a queue (the popped packet, if any, leaves the
queue and is handed to the caller). -/
def applyOp (q : PacketQueue) : QOp → PacketQueue
  | QOp.push pkt => pq_put q pkt
  | QOp.pop block => (pq_get q block).2
  | QOp.flush => pq_flush q

/-- Run a sequence of operations from the freshly initialised queue. -/
def runOps (ops : List QOp) : PacketQueue :=
  ops.foldl applyOp pq_init

/-- Total payload size of a list of packets. -/
def sizeSum (l : List Packet) : Int :=
  (l.map Packet.size).sum

/-- The counters agree with the queue contents. -/
def CountersOk (q : PacketQueue) : Prop :=
  q.nb_packets = q.items.length ∧ q.size = sizeSum q.items

/-! ## Video render tick: A/V sync (main.c, the `vret > 0` branch) -/

/-- The player-state fields read and written by the A/V-sync block of the
render loop in `main.c` (`video_clock` has already been set by
`video_decode_frame` to the PTS of the frame about to be shown). -/
structure SyncState where
  video_clock : ℚ
  audio_clock : ℚ
  frame_last_pts : ℚ
  frame_last_delay : ℚ
  frame_timer : ℚ
  audio_stream_idx : Int
  deriving Repr, DecidableEq

/-- The A/V-sync block of the render loop in `main.c`, executed when
`video_decode_frame` returned a frame.  Returns the updated state, the delay
added to `frame_timer`, and the seconds actually slept (`SDL_Delay` is called
only when `0 < actual_delay < 1`; otherwise no sleep happens).  The
millisecond truncation performed by `SDL_Delay((Uint32)(actual_delay *
1000.0))` is a unit conversion and is not modelled. -/
def video_sync_tick (st : SyncState) (now : ℚ) : SyncState × ℚ × ℚ :=
  let pts_delay0 := st.video_clock - st.frame_last_pts
  let pts_delay :=
    if pts_delay0 ≤ 0 ∨ 1 ≤ pts_delay0 then st.frame_last_delay else pts_delay0
  let st1 := { st with frame_last_pts := st.video_clock, frame_last_delay := pts_delay }
  let delay :=
    if 0 ≤ st.audio_stream_idx then
      let diff := st.video_clock - st.audio_clock
      let threshold := max pts_delay (1 / 100)
      if threshold < diff then pts_delay + diff
      else if diff < -threshold then 0
      else pts_delay
    else pts_delay
  let st2 := { st1 with frame_timer := st1.frame_timer + delay }
  let actual_delay := st2.frame_timer - now
  let sleep_s := if 0 < actual_delay ∧ actual_delay < 1 then actual_delay else 0
  (st2, delay, sleep_s)

/-- A concrete sync state used by the C1 witness. -/
def syncW1 : SyncState :=
  { video_clock := 2, audio_clock := 2, frame_last_pts := 49 / 25,
    frame_last_delay := 1 / 30, frame_timer := 10, audio_stream_idx := 0 }

/-! ## Demux coordinator (player.c, `demux_thread_func`) -/

/-- The player-state fields read and written by the demux thread: the video
and audio packet queues, the per-track subtitle queues (`sub_pqs` in
`dsvp.h`), the selected stream indices, the open codecs with their internal
buffers (opaque contents, flushed by `avcodec_flush_buffers`), the audio
device and its paused flag, the user pause flag, EOF / seek bookkeeping, the
audio carry-over buffer cursors, and the two clocks. -/
structure DemuxState where
  video_pq : PacketQueue
  audio_pq : PacketQueue
  sub_pqs : List PacketQueue
  video_stream_idx : Int
  audio_stream_idx : Int
  video_codec_open : Bool
  video_codec_buf : List Int
  audio_codec_open : Bool
  audio_codec_buf : List Int
  sub_codec_open : Bool
  sub_codec_buf : List Int
  audio_dev : Bool
  device_paused : Bool
  paused : Bool
  eof : Bool
  seek_request : Bool
  seeking : Bool
  audio_buf_size : Nat
  audio_buf_index : Nat
  audio_clock : ℚ
  video_clock : ℚ
  deriving Repr, DecidableEq

/-- The seek-handling block of `demux_thread_func` (executed when
`seek_request` is set): lock the seek mutex, set `seeking`, pause the audio
device, call `av_seek_frame` (its outcome is the `seek_ok` oracle); on
success flush the video and audio packet queues and the open video and audio
codecs' buffers; in both cases clear `seek_request` and `eof`, reset the
audio carry-over buffer cursors, clear `seeking`, unlock, and resume the
audio device unless the user has paused playback.  The coordinator then
falls through to the read loop. -/
def demux_handle_seek (st : DemuxState) (seek_ok : Bool) : DemuxState :=
  let st1 := { st with
    seeking := true
    device_paused := if st.audio_dev then true else st.device_paused }
  let st2 :=
    if seek_ok then
      { st1 with
        video_pq := pq_flush st1.video_pq
        audio_pq := pq_flush st1.audio_pq
        video_codec_buf := if st1.video_codec_open then [] else st1.video_codec_buf
        audio_codec_buf := if st1.audio_codec_open then [] else st1.audio_codec_buf }
    else st1
  let st3 := { st2 with
    seek_request := false
    eof := false
    audio_buf_size := 0
    audio_buf_index := 0
    seeking := false }
  if st3.audio_dev ∧ ¬st3.paused then { st3 with device_paused := false } else st3

/-- The packet-routing step of the demux read loop: a packet read by
`av_read_frame` is pushed onto the video queue when its stream index is the
selected video stream, onto the audio queue when it is the selected audio
stream, and is dropped (`av_packet_unref`) otherwise. -/
def demux_route (st : DemuxState) (pkt : Packet) : DemuxState :=
  if pkt.stream_index = st.video_stream_idx then
    { st with video_pq := pq_put st.video_pq pkt }
  else if pkt.stream_index = st.audio_stream_idx then
    { st with audio_pq := pq_put st.audio_pq pkt }
  else
    st

/-- Routing a whole sequence of packets read from the container. -/
def demux_run (st : DemuxState) (pkts : List Packet) : DemuxState :=
  pkts.foldl demux_route st

/-- A concrete video-stream packet used by the demux fixtures. -/
def pktW2v : Packet :=
  { stream_index := 0, size := 11, pts := some 0, duration := 0,
    send_ok := true, frames := [], cue := none }

/-- A concrete subtitle-stream packet (stream 2, which is neither the
selected video stream 0 nor the selected audio stream 1). -/
def pktW2s : Packet :=
  { stream_index := 2, size := 9, pts := some 0, duration := 0,
    send_ok := true, frames := [], cue := none }

/-- A concrete demux state used by the C2 counterexample and the C2/C10
witnesses: playback is user-paused, the audio device exists, and a subtitle
codec is open with data buffered inside it. -/
def demuxW2 : DemuxState :=
  { video_pq := pq_put pq_init pktW2v
    audio_pq := pq_init
    sub_pqs := [pq_init]
    video_stream_idx := 0
    audio_stream_idx := 1
    video_codec_open := true
    video_codec_buf := [3]
    audio_codec_open := true
    audio_codec_buf := [4]
    sub_codec_open := true
    sub_codec_buf := [7]
    audio_dev := true
    device_paused := false
    paused := true
    eof := true
    seek_request := true
    seeking := false
    audio_buf_size := 100
    audio_buf_index := 40
    audio_clock := 5
    video_clock := 5 }

/-- The same demux state with playback not user-paused (used by the C2
witness, where the device resumption clause applies). -/
def demuxW2b : DemuxState :=
  { demuxW2 with paused := false }

/-! ## Audio pipeline (audio.c: `audio_decode_frame`, `audio_callback`) -/

/-- The player-state fields read and written by the audio pipeline: the audio
packet queue, the audio codec (frames it has ready to deliver via
`avcodec_receive_frame`, plus an error flag for the non-EAGAIN failure
branch), the lazily created resampler (`swr_present`) and the outcome of its
initialisation (`swr_init_ok`, an oracle for `swr_alloc_set_opts2` /
`swr_init`), the resampled carry-over buffer `audio_buf` with its
`audio_buf_size` / `audio_buf_index` cursors, the audio clock, the stream
time base and device sample rate used by the clock update, and the pause /
seek flags checked by the callback.  In the model the carry-over buffer is
read with a default of 0 past its end (the C buffer is always at least
`AUDIO_BUF_SIZE` bytes of allocated memory). -/
structure AudioState where
  audio_pq : PacketQueue
  codec_frames : List AFrame
  recv_error : Bool
  swr_present : Bool
  swr_init_ok : Bool
  audio_buf : List Int
  audio_buf_size : Nat
  audio_buf_index : Nat
  audio_clock : ℚ
  time_base : ℚ
  freq : ℚ
  paused : Bool
  seek_request : Bool
  seeking : Bool
  deriving Repr, DecidableEq

/-- The receive/send loop at the heart of `audio_decode_frame`: try
`avcodec_receive_frame` (the head of `codec_frames`); on EAGAIN (no frame
ready) pull one packet from the audio queue with a non-blocking `pq_get` —
returning failure if the queue is empty or aborted — submit it with
`avcodec_send_packet` (which yields the packet's `frames` when `send_ok`),
and retry.  Returns the received frame (if any), the remaining codec frames,
and the queue as left behind. -/
def recvFrame (frames : List AFrame) (q : PacketQueue) :
    Option AFrame × List AFrame × PacketQueue :=
  match frames with
  | f :: fs => (some f, fs, q)
  | [] =>
    match h : pq_get q false with
    | (PopResult.got p, q') =>
        if p.send_ok then recvFrame p.frames q' else (none, [], q')
    | (_, q') => (none, [], q')
termination_by q.items.length
decreasing_by
  unfold pq_get at h
  by_cases hab : q.abort_request = true
  · rw [if_pos hab] at h
    simp at h
  · rw [if_neg hab] at h
    cases hq : q.items with
    | nil =>
        rw [hq] at h
        simp at h
    | cons a as =>
        rw [hq] at h
        have h2 := (Prod.mk.injEq _ _ _ _ ▸ h).2
        rw [← h2]
        simp

/-- `audio_decode_frame`: receive one decoded frame (feeding packets from the
queue as needed), lazily initialise the resampler on the first frame,
resample into `audio_buf`, update the audio clock (reset to `pts × time_base`
when the frame carries a timestamp, then advance by `converted / freq`), and
return the number of resampled bytes; `-1` on decoder error, resampler
failure, resample error, or when no data is available right now. -/
def audio_decode_frame (st : AudioState) : Int × AudioState :=
  if st.recv_error then (-1, st)
  else
    match recvFrame st.codec_frames st.audio_pq with
    | (none, fs', q') => (-1, { st with codec_frames := fs', audio_pq := q' })
    | (some f, fs', q') =>
        let st1 := { st with codec_frames := fs', audio_pq := q' }
        if st1.swr_present = false ∧ st1.swr_init_ok = false then (-1, st1)
        else
          let st2 := { st1 with swr_present := true }
          if f.converted < 0 then (-1, st2)
          else
            let clock1 :=
              match f.pts with
              | some p => (p : ℚ) * st2.time_base
              | none => st2.audio_clock
            ((f.bytes.length : Int),
              { st2 with
                audio_buf := f.bytes
                audio_clock := clock1 + (f.converted : ℚ) / st2.freq })

/-- The fill loop of `audio_callback`: while bytes remain requested, decode a
new frame whenever the carry-over buffer is exhausted (stopping — and leaving
the remainder of the output as the silence written by the initial `memset` —
when no data is available), then copy `min remaining avail` bytes from the
carry-over buffer into the output through `SDL_MixAudioFormat` (modelled by
the abstract per-byte function `mix`). -/
def cb_fill (mix : Int → Int) (st : AudioState) (remaining : Nat) :
    List Int × AudioState :=
  if hr : remaining = 0 then ([], st)
  else if hb : st.audio_buf_size ≤ st.audio_buf_index then
    match audio_decode_frame st with
    | (decoded, st') =>
      if hd : decoded ≤ 0 then (List.replicate remaining 0, st')
      else
        let st2 := { st' with audio_buf_size := decoded.toNat, audio_buf_index := 0 }
        let tocopy := min remaining decoded.toNat
        let chunk := (List.range tocopy).map
          (fun i => mix (st2.audio_buf.getD i 0))
        let st3 := { st2 with audio_buf_index := tocopy }
        let rest := cb_fill mix st3 (remaining - tocopy)
        (chunk ++ rest.1, rest.2)
  else
    let avail := st.audio_buf_size - st.audio_buf_index
    let tocopy := min remaining avail
    let chunk := (List.range tocopy).map
      (fun i => mix (st.audio_buf.getD (st.audio_buf_index + i) 0))
    let st3 := { st with audio_buf_index := st.audio_buf_index + tocopy }
    let rest := cb_fill mix st3 (remaining - tocopy)
    (chunk ++ rest.1, rest.2)
termination_by remaining
decreasing_by
  · omega
  · omega

/-- `audio_callback`: the requested range is zeroed first (`memset`); if
playback is paused or a seek is pending or in progress the callback returns
immediately with the output still all zeros and the state untouched;
otherwise the fill loop runs.  The output list is the contents of `stream`
on return. -/
def audio_callback (mix : Int → Int) (st : AudioState) (len : Nat) :
    List Int × AudioState :=
  if st.paused = true ∨ st.seek_request = true ∨ st.seeking = true then
    (List.replicate len 0, st)
  else
    cb_fill mix st len

/-- Frame fixture for the C5 witness: pts 3000 in a 1/1000 time base, one
converted sample at a device rate of 2 samples per second. -/
def aframeW5 : AFrame :=
  { pts := some 3000, bytes := [1, 2, 3, 4], converted := 1 }

/-- Audio-state fixture for the C5 witness. -/
def audioW5 : AudioState :=
  { audio_pq := pq_init, codec_frames := [aframeW5], recv_error := false,
    swr_present := true, swr_init_ok := true, audio_buf := [],
    audio_buf_size := 0, audio_buf_index := 0, audio_clock := 0,
    time_base := 1 / 1000, freq := 2,
    paused := false, seek_request := false, seeking := false }

/-- Audio-state fixture for the C3 witness: running (not paused, no seek),
with empty queues, no buffered codec frames and an exhausted carry-over
buffer. -/
def audioW3 : AudioState :=
  { audio_pq := pq_init, codec_frames := [], recv_error := false,
    swr_present := false, swr_init_ok := true, audio_buf := [],
    audio_buf_size := 0, audio_buf_index := 0, audio_clock := 0,
    time_base := 1 / 1000, freq := 48000,
    paused := false, seek_request := false, seeking := false }

/-- The same fixture with playback paused. -/
def audioW3p : AudioState :=
  { audioW3 with paused := true }

/-! ## Audio track cycling (audio.c, `audio_cycle`) -/

/-- External-library outcomes consulted by `audio_cycle`, keyed by container
stream index: whether `avcodec_find_decoder` finds a decoder, whether
`avcodec_open2` succeeds, and the stream's codec sample rate. -/
structure AudioCycleEnv where
  decoder_ok : Int → Bool
  open_ok : Int → Bool
  sample_rate : Int → Int

/-- The player-state fields read and written by `audio_cycle`: the audio
track catalog (`aud_stream_indices` / `aud_stream_names`; `aud_count` is the
catalog length), the current selection, the active stream index, the audio
queue, codec/resampler handles, carry-over buffer cursors, the SDL audio
device with its paused flag and negotiated rate, the user pause flag, the
audio clock, the seek-request fields it raises, and the OSD notice. -/
structure AudioCycleState where
  aud_stream_indices : List Int
  aud_stream_names : List String
  aud_selection : Nat
  audio_stream_idx : Int
  audio_pq : PacketQueue
  audio_codec_open : Bool
  swr_present : Bool
  audio_buf_size : Nat
  audio_buf_index : Nat
  audio_dev : Bool
  device_paused : Bool
  audio_spec_freq : Int
  paused : Bool
  audio_clock : ℚ
  seek_target : Int
  seek_backward : Bool
  seek_request : Bool
  aud_osd : String
  aud_osd_until : ℚ
  deriving Repr, DecidableEq

/-- `audio_cycle` step 1: pause the SDL audio device (stops the callback
from touching the codec).  `SDL_PauseAudioDevice(dev, 1)` is called only when
a device exists. -/
def ac_pause_device (st : AudioCycleState) : AudioCycleState :=
  { st with device_paused := if st.audio_dev then true else st.device_paused }

/-- `audio_cycle` steps 2–3: flush the audio queue, close the old codec and
resampler, and reset the carry-over buffer cursors. -/
def ac_flush_close (st : AudioCycleState) : AudioCycleState :=
  { st with
    audio_pq := pq_flush st.audio_pq
    audio_codec_open := false
    swr_present := false
    audio_buf_size := 0
    audio_buf_index := 0 }

/-- `audio_cycle` step 5: when the new codec's sample rate differs from the
device's, close and reopen the SDL audio device (`audio_close` +
`audio_open`, modelled as succeeding: the device exists unpaused at the new
rate with a reset carry-over buffer). -/
def ac_reopen_device (new_rate : Int) (st : AudioCycleState) :
    AudioCycleState :=
  if new_rate ≠ st.audio_spec_freq then
    { st with
      audio_dev := true
      device_paused := false
      audio_spec_freq := new_rate
      audio_buf_size := 0
      audio_buf_index := 0 }
  else st

/-- `audio_cycle` step 6: raise a backward seek to the current audio clock
(clamped to at least 0.1 s) so the demux read head realigns with the new
stream. -/
def ac_raise_seek (st : AudioCycleState) : AudioCycleState :=
  let pos := max st.audio_clock (1 / 10)
  { st with
    seek_target := Int.floor (pos * 1000000)
    seek_backward := true
    seek_request := true }

/-- `audio_cycle` step 7: resume the device, unless the user has paused
playback. -/
def ac_resume (st : AudioCycleState) : AudioCycleState :=
  if st.audio_dev ∧ ¬st.paused then { st with device_paused := false } else st

/-- `audio_cycle`: with a catalog of zero or one tracks, post a user notice
and return.  Otherwise: compute the next selection cyclically, pause the
device, flush the audio queue, close the old codec and resampler, open the
new track's decoder (posting a notice and returning on failure, with the
selection unchanged), reopen the device when the sample rate differs, record
the new selection and stream, raise a backward seek to the current audio
clock, resume the device unless the user paused, and post the track
notice. -/
def audio_cycle (env : AudioCycleEnv) (now : ℚ) (st : AudioCycleState) :
    AudioCycleState :=
  if st.aud_stream_indices.length ≤ 1 then
    { st with
      aud_osd :=
        if st.aud_stream_indices.length = 0 then "No audio tracks"
        else "Only one audio track"
      aud_osd_until := now + 2 }
  else
    let new_sel := (st.aud_selection + 1) % st.aud_stream_indices.length
    let new_stream_idx := st.aud_stream_indices.getD new_sel 0
    let st2 := ac_flush_close (ac_pause_device st)
    if env.decoder_ok new_stream_idx = false then
      { st2 with aud_osd := "Audio: codec error", aud_osd_until := now + 2 }
    else if env.open_ok new_stream_idx = false then
      { st2 with aud_osd := "Audio: codec error", aud_osd_until := now + 2 }
    else
      let st3 := { st2 with audio_codec_open := true }
      let st4 := ac_reopen_device (env.sample_rate new_stream_idx) st3
      let st5 := { st4 with
        aud_selection := new_sel
        audio_stream_idx := new_stream_idx }
      let st7 := ac_resume (ac_raise_seek st5)
      { st7 with
        aud_osd := "Audio: " ++ st.aud_stream_names.getD new_sel ""
        aud_osd_until := now + 2 }

/-- Environment fixture for the C8 witness: every stream has a working
decoder at a constant 48 kHz. -/
def audEnvW : AudioCycleEnv :=
  { decoder_ok := fun _ => true, open_ok := fun _ => true,
    sample_rate := fun _ => 48000 }

/-- State fixture for the C8 witness: a two-track catalog with track 0
selected. -/
def audW8 : AudioCycleState :=
  { aud_stream_indices := [1, 2], aud_stream_names := ["a", "b"],
    aud_selection := 0, audio_stream_idx := 1, audio_pq := pq_init,
    audio_codec_open := true, swr_present := true,
    audio_buf_size := 0, audio_buf_index := 0,
    audio_dev := true, device_paused := false, audio_spec_freq := 48000,
    paused := false, audio_clock := 2, seek_target := 0,
    seek_backward := false, seek_request := false,
    aud_osd := "", aud_osd_until := 0 }

/-! ## Subtitle engine (subtitle.c: `sub_cycle`, `sub_decode_pending`) -/

/-- External-library outcomes consulted by the subtitle engine, keyed by
container stream index: decoder availability, `avcodec_open2` success, and
the stream time base. -/
structure SubEnv where
  sub_decoder_ok : Int → Bool
  sub_open_ok : Int → Bool
  time_base : Int → ℚ

/-- The player-state fields read and written by the subtitle engine: the
subtitle track catalog, the user selection (`0` = off, `1..N` = track), the
active container stream index (`-1` when off), the open codec flag, the
per-track packet queues, the current cue (`sub_text` / `sub_start_pts` /
`sub_end_pts` / `sub_valid`), the seek-request flag (read to show it is
never raised), the OSD notice, and the clocks from which "now" is taken. -/
structure SubState where
  sub_stream_indices : List Int
  sub_stream_names : List String
  sub_selection : Nat
  sub_active_idx : Int
  sub_codec_open : Bool
  sub_pqs : List PacketQueue
  sub_valid : Bool
  sub_text : String
  sub_start_pts : ℚ
  sub_end_pts : ℚ
  seek_request : Bool
  sub_osd : String
  sub_osd_until : ℚ
  audio_stream_idx : Int
  audio_clock : ℚ
  video_clock : ℚ
  deriving Repr, DecidableEq

/-- `sub_close_codec`: free the codec, deactivate the track, and clear the
displayed cue. -/
def sub_close_codec (st : SubState) : SubState :=
  { st with
    sub_codec_open := false
    sub_active_idx := -1
    sub_valid := false
    sub_text := "" }

/-- `sub_open_codec`: close the previous codec first; then, for a
non-negative stream index, open the new one (leaving the codec closed when
the decoder is missing or fails to open). -/
def sub_open_codec (env : SubEnv) (st : SubState) (stream_idx : Int) :
    SubState :=
  let st1 := sub_close_codec st
  if stream_idx < 0 then st1
  else if env.sub_decoder_ok stream_idx = false then st1
  else if env.sub_open_ok stream_idx = false then st1
  else { st1 with sub_codec_open := true, sub_active_idx := stream_idx }

/-- `sub_cycle`: with no subtitle tracks, post a notice and return.
Otherwise advance the selection cyclically `0 (off) → 1 → … → N → 0`; on
`0` close the codec, else open the selected track's codec and clear the
currently displayed cue so the new track takes effect immediately.  No seek
is raised. -/
def sub_cycle (env : SubEnv) (now : ℚ) (st : SubState) : SubState :=
  if st.sub_stream_indices.length = 0 then
    { st with sub_osd := "No subtitles available", sub_osd_until := now + 2 }
  else
    let st0 := { st with
      sub_selection :=
        (st.sub_selection + 1) % (st.sub_stream_indices.length + 1) }
    if st0.sub_selection = 0 then
      let st1 := sub_close_codec st0
      { st1 with sub_osd := "Subtitles: Off", sub_osd_until := now + 2 }
    else
      let stream_idx := st0.sub_stream_indices.getD (st0.sub_selection - 1) 0
      let st1 := sub_open_codec env st0 stream_idx
      let st2 := { st1 with sub_valid := false, sub_text := "" }
      { st2 with
        sub_osd :=
          "Subtitles: " ++ st0.sub_stream_names.getD (st0.sub_selection - 1) ""
        sub_osd_until := now + 2 }

/-- Environment fixture for the C9/C7 witnesses. -/
def subEnvW : SubEnv :=
  { sub_decoder_ok := fun _ => true, sub_open_ok := fun _ => true,
    time_base := fun _ => 1 / 1000 }

/-- State fixture for the C9 witness: two subtitle tracks, currently off,
with a (stale) cue on screen. -/
def subW9 : SubState :=
  { sub_stream_indices := [3, 4], sub_stream_names := ["a", "b"],
    sub_selection := 0, sub_active_idx := -1, sub_codec_open := false,
    sub_pqs := [pq_init, pq_init], sub_valid := true, sub_text := "x",
    sub_start_pts := 0, sub_end_pts := 1, seek_request := false,
    sub_osd := "", sub_osd_until := 0,
    audio_stream_idx := 0, audio_clock := 0, video_clock := 0 }

/-- "Now" as used by the subtitle engine: the audio master clock, or the
video clock when no audio track is active. -/
def sub_now (st : SubState) : ℚ :=
  if st.audio_stream_idx < 0 then st.video_clock else st.audio_clock

/-- The packet's presentation time in seconds: `pts × time_base`, or `0`
when the packet carries no timestamp (`AV_NOPTS_VALUE`). -/
def sub_pkt_pts (pkt : Packet) (tb : ℚ) : ℚ :=
  match pkt.pts with
  | some p => (p : ℚ) * tb
  | none => 0

/-- The display window of a decoded cue, from `sub_decode_pending`: start is
`pkt_pts + start_display_time/1000`; the end is
`pkt_pts + end_display_time/1000` when an explicit end time is present
(`end_display_time ≠ 0`), else `pkt_pts + pkt.duration × time_base` when the
packet carries a positive duration, else `start + 3` seconds (the hard-coded
last-resort window). -/
def sub_window (pkt : Packet) (c : SubCue) (tb : ℚ) : ℚ × ℚ :=
  let pp := sub_pkt_pts pkt tb
  let s := pp + (c.start_display_time : ℚ) / 1000
  let e0 := pp + (c.end_display_time : ℚ) / 1000
  let e :=
    if c.end_display_time = 0 ∧ 0 < pkt.duration then pp + (pkt.duration : ℚ) * tb
    else if c.end_display_time = 0 then s + 3
    else e0
  (s, e)

/-- Whether `sub_decode_pending`'s loop skips this packet and continues: the
decode produced no displayable cue (failure, zero rects, or empty extracted
text), or the cue's window has already fully expired relative to "now". -/
def sub_skipb (tb now : ℚ) (pkt : Packet) : Bool :=
  match pkt.cue with
  | none => true
  | some c =>
      if c.text = "" then true
      else if (sub_window pkt c tb).2 < now then true
      else false

/-- The candidate loop of `sub_decode_pending`: pop packets from the active
track's queue (non-blocking); for each, decode it, compute its display
window, and skip it when it yields no text or its end time is already before
"now"; keep the first surviving cue (recording its text and window and
setting `sub_valid`), leaving the remaining packets queued.  Stops when the
queue yields nothing. -/
def sub_scan (tb now : ℚ) (st : SubState) (q : PacketQueue) :
    SubState × PacketQueue :=
  match h : pq_get q false with
  | (PopResult.got pkt, q') =>
    match pkt.cue with
    | none => sub_scan tb now st q'
    | some c =>
      if c.text = "" then sub_scan tb now st q'
      else
        if (sub_window pkt c tb).2 < now then sub_scan tb now st q'
        else
          ({ st with
              sub_text := c.text
              sub_start_pts := (sub_window pkt c tb).1
              sub_end_pts := (sub_window pkt c tb).2
              sub_valid := true }, q')
  | (_, q') => (st, q')
termination_by q.items.length
decreasing_by
  all_goals
    unfold pq_get at h
    by_cases hab : q.abort_request = true
    · rw [if_pos hab] at h
      simp at h
    · rw [if_neg hab] at h
      cases hq : q.items with
      | nil =>
          rw [hq] at h
          simp at h
      | cons a as =>
          rw [hq] at h
          have h2 := (Prod.mk.injEq _ _ _ _ ▸ h).2
          rw [← h2]
          simp

/-- `sub_decode_pending`: called each render tick.  Returns unchanged when
no subtitle track is active or the selection is out of range; keeps the
current cue while it still covers "now"; otherwise invalidates it and scans
the active track's queue for the next candidate. -/
def sub_decode_pending (env : SubEnv) (st : SubState) : SubState :=
  if st.sub_active_idx < 0 ∨ st.sub_codec_open = false then st
  else if st.sub_selection = 0 ∨ st.sub_stream_indices.length < st.sub_selection then st
  else
    let now := sub_now st
    if st.sub_valid = true ∧ now ≤ st.sub_end_pts then st
    else
      let st1 := { st with sub_valid := false }
      let tb := env.time_base st.sub_active_idx
      let res := sub_scan tb now st1 (st.sub_pqs.getD (st.sub_selection - 1) pq_init)
      { res.1 with sub_pqs := st.sub_pqs.set (st.sub_selection - 1) res.2 }

/-- Cue fixture for the C7 witness: explicit end time 2000 ms. -/
def subCueW7 : SubCue :=
  { start_display_time := 0, end_display_time := 2000, text := "hello" }

/-- Expired cue fixture for the C7 witness: its window ends at 1.5 s. -/
def subCueW7e : SubCue :=
  { start_display_time := 0, end_display_time := 500, text := "old" }

/-- Candidate packet for the C7 witness: pts 10 s, window 10–12 s. -/
def subPktW7 : Packet :=
  { stream_index := 3, size := 5, pts := some 10000, duration := 0,
    send_ok := true, frames := [], cue := some subCueW7 }

/-- Already-expired packet for the C7 witness: pts 1 s, window 1–1.5 s. -/
def subPktW7e : Packet :=
  { stream_index := 3, size := 5, pts := some 1000, duration := 0,
    send_ok := true, frames := [], cue := some subCueW7e }

/-- Trailing packet for the C7 witness (stays queued). -/
def subPktW7t : Packet :=
  { stream_index := 3, size := 5, pts := some 20000, duration := 0,
    send_ok := true, frames := [], cue := some subCueW7 }

/-- State fixture for the C7 witness: track 1 active, audio clock (master)
at 11 s, no cue on screen, and the track's queue holding an expired
candidate, a live candidate, and a trailing packet. -/
def subW7 : SubState :=
  { sub_stream_indices := [3, 4], sub_stream_names := ["a", "b"],
    sub_selection := 1, sub_active_idx := 3, sub_codec_open := true,
    sub_pqs :=
      [{ items := [subPktW7e, subPktW7, subPktW7t], nb_packets := 3,
         size := 15, abort_request := false }, pq_init],
    sub_valid := false, sub_text := "", sub_start_pts := 0, sub_end_pts := 0,
    seek_request := false, sub_osd := "", sub_osd_until := 0,
    audio_stream_idx := 1, audio_clock := 11, video_clock := 0 }

/- Concrete fixtures for the `pq_get` witness. -/

/-- A concrete packet used by the C6 witness. -/
def pktW6 : Packet :=
  { stream_index := 0, size := 5, pts := some 0, duration := 0,
    send_ok := true, frames := [], cue := none }

/-- A concrete one-element queue used by the C6 witness. -/
def pqW6 : PacketQueue :=
  { items := [pktW6], nb_packets := 1, size := 5, abort_request := false }

end DSVP

namespace DSVP

theorem countersOk_applyOp {q : PacketQueue} (h : CountersOk q) (op : QOp) :
    CountersOk (applyOp q op) := by
  unfold CountersOk at *
  obtain ⟨items, nb, sz, ab⟩ := q
  obtain ⟨h1, h2⟩ := h
  cases op with
  | push pkt =>
      constructor
      · simp at h1 ⊢; simp [applyOp, pq_put, h1]
      · simp [sizeSum] at h2 ⊢; simp [applyOp, pq_put, h2]
  | pop block =>
      cases ab <;> cases items <;> cases block <;>
        simp_all [applyOp, pq_get, sizeSum]
  | flush =>
      constructor <;> simp [applyOp, pq_flush, sizeSum]

theorem countersOk_foldl {q : PacketQueue} (h : CountersOk q) (ops : List QOp) :
    CountersOk (ops.foldl applyOp q) := by
  induction ops generalizing q with
  | nil => exact h
  | cons op ops ih => exact ih (countersOk_applyOp h op)

/-- **C4.** For every sequence of push / pop / flush operations started from
the freshly initialised queue, the stored item count `nb_packets` equals the
number of packets in the queue and the stored byte total `size` equals the sum
of the payload sizes of those packets (this holds at every observation point,
since every intermediate state is `runOps` of a prefix); and `pq_flush`
leaves both counters at zero from any state. -/
theorem pq_counters_invariant :
    (∀ ops : List QOp,
        (runOps ops).nb_packets = (runOps ops).items.length ∧
        (runOps ops).size = sizeSum (runOps ops).items) ∧
    (∀ q : PacketQueue, (pq_flush q).nb_packets = 0 ∧ (pq_flush q).size = 0) := by
  constructor
  · intro ops
    have hinit : CountersOk pq_init := by constructor <;> simp [pq_init, sizeSum]
    exact countersOk_foldl hinit ops
  · intro q
    exact ⟨rfl, rfl⟩

/-- **C6.** A pop returns exactly one of: a packet (`got`, removing the front
item and decrementing both counters), `empty` (only possible in non-blocking
mode with no item available), or `aborted` (exactly when the abort flag is
set).  A blocking pop never returns `empty`: while no item is available it
stays blocked on the condition variable, so the only values it can return are
a packet or `aborted`. -/
theorem pq_get_spec (q : PacketQueue) (block : Bool) :
    ((pq_get q block).1 = PopResult.aborted ↔ q.abort_request = true) ∧
    (block = true → (pq_get q block).1 ≠ PopResult.empty) ∧
    ((pq_get q block).1 = PopResult.empty →
        block = false ∧ q.abort_request = false ∧ q.items = []) ∧
    (∀ pkt : Packet, (pq_get q block).1 = PopResult.got pkt →
        q.items.head? = some pkt ∧
        (pq_get q block).2.items = q.items.tail ∧
        (pq_get q block).2.nb_packets = q.nb_packets - 1 ∧
        (pq_get q block).2.size = q.size - pkt.size) := by
  unfold pq_get
  split
  · rename_i habort
    refine ⟨by simp [habort], by simp, by simp, ?_⟩
    intro pkt h
    simp at h
  · rename_i habort
    cases hq : q.items with
    | nil =>
        cases block <;>
          · refine ⟨by simp [habort], by simp, by simp [habort, hq], ?_⟩
            intro pkt h
            simp at h
    | cons p rest =>
        refine ⟨by simp [habort], by simp, by simp, ?_⟩
        intro pkt h
        simp only [PopResult.got.injEq] at h
        subst h
        simp [hq]

/-- Witness for C6: on a concrete one-element queue, a non-blocking pop
returns the front packet, leaves the tail, and decrements both counters. -/
theorem pq_get_spec_witness :
    pqW6.items.head? = some pktW6 ∧
    (pq_get pqW6 false).2.items = pqW6.items.tail ∧
    (pq_get pqW6 false).2.nb_packets = pqW6.nb_packets - 1 ∧
    (pq_get pqW6 false).2.size = pqW6.size - pktW6.size :=
  (pq_get_spec pqW6 false).2.2.2 pktW6 (by decide)

/-- **C1.** In the render tick, when a frame was decoded: the frame delay
`pts_delay` is the new video clock minus the previous frame's PTS, replaced by
the previous frame's delay when non-positive or at least one second; when an
audio stream is active, with `diff = video_clock - audio_clock` and
`threshold = max pts_delay 0.01`, the delay used is `pts_delay + diff` when
`diff > threshold`, `0` when `diff < -threshold`, and `pts_delay` otherwise;
`frame_timer` advances by that delay, and the actual sleep performed before
presenting the frame is the clamp of `frame_timer - now` into `[0, 1)`: it
always lies in `[0, 1)`, equals `frame_timer - now` whenever that value lies
in `[0, 1)`, and is `0` when that value is non-positive. -/
theorem video_sync_spec (st : SyncState) (now : ℚ) :
    let pd0 := st.video_clock - st.frame_last_pts
    let pd := if pd0 ≤ 0 ∨ 1 ≤ pd0 then st.frame_last_delay else pd0
    let diff := st.video_clock - st.audio_clock
    let thr := max pd (1 / 100)
    let d :=
      if 0 ≤ st.audio_stream_idx then
        (if thr < diff then pd + diff else if diff < -thr then 0 else pd)
      else pd
    let ad := st.frame_timer + d - now
    (video_sync_tick st now).2.1 = d ∧
    (video_sync_tick st now).1.frame_timer = st.frame_timer + d ∧
    0 ≤ (video_sync_tick st now).2.2 ∧
    (video_sync_tick st now).2.2 < 1 ∧
    (ad ≤ 0 → (video_sync_tick st now).2.2 = 0) ∧
    (0 ≤ ad → ad < 1 → (video_sync_tick st now).2.2 = ad) := by
  intro pd0 pd diff thr d ad
  have hs : (video_sync_tick st now).2.2 = if 0 < ad ∧ ad < 1 then ad else 0 := rfl
  refine ⟨rfl, rfl, ?_, ?_, ?_, ?_⟩
  · rw [hs]; split
    · rename_i h; exact le_of_lt h.1
    · exact le_refl 0
  · rw [hs]; split
    · rename_i h; exact h.2
    · norm_num
  · intro had
    rw [hs, if_neg (fun h => absurd had (not_le.mpr h.1))]
  · intro h0 h1
    rw [hs]
    by_cases hc : 0 < ad
    · rw [if_pos ⟨hc, h1⟩]
    · rw [if_neg (fun h => hc h.1)]
      exact (le_antisymm (not_lt.mp hc) h0).symm

/-- **C2, counterexample.**  The claim states that on a successful seek
"every open codec's internal buffers are flushed" and that "in both cases
... the audio device is resumed".  At the concrete state `demuxW2` — the
subtitle codec is open with buffered data, playback is user-paused — a
successful seek leaves the subtitle codec's buffers untouched (only the
video and audio codecs are flushed) and leaves the audio device paused (the
resume call is guarded by `!ps->paused`), so the claim is false there. -/
theorem demux_seek_claim_counterexample :
    (demux_handle_seek demuxW2 true).sub_codec_open = true ∧
    ¬ ((demux_handle_seek demuxW2 true).sub_codec_buf = [] ∧
       (demux_handle_seek demuxW2 true).device_paused = false) := by
  decide

/-- **C2, amended.**  When the demux coordinator consumes a pending seek
request: if the container seek succeeds, the video and audio packet queues
and the open video and audio codecs' internal buffers are flushed and the
position bookkeeping (audio carry-over buffer cursors) is reset; if it
fails, those queues and codec buffers are left intact; in both cases the
playback clocks are untouched, the pending flag and the EOF condition are
cleared (a pending seek pre-empts end-of-stream), `seeking` is released, the
audio device is resumed unless playback is user-paused, and the subtitle
queues and subtitle codec buffers are never touched; the coordinator then
returns to reading. -/
theorem demux_seek_spec (st : DemuxState) (ok : Bool) :
    (ok = true →
        (demux_handle_seek st ok).video_pq.items = [] ∧
        (demux_handle_seek st ok).video_pq.nb_packets = 0 ∧
        (demux_handle_seek st ok).video_pq.size = 0 ∧
        (demux_handle_seek st ok).audio_pq.items = [] ∧
        (demux_handle_seek st ok).audio_pq.nb_packets = 0 ∧
        (demux_handle_seek st ok).audio_pq.size = 0 ∧
        (st.video_codec_open = true → (demux_handle_seek st ok).video_codec_buf = []) ∧
        (st.audio_codec_open = true → (demux_handle_seek st ok).audio_codec_buf = [])) ∧
    (ok = false →
        (demux_handle_seek st ok).video_pq = st.video_pq ∧
        (demux_handle_seek st ok).audio_pq = st.audio_pq ∧
        (demux_handle_seek st ok).video_codec_buf = st.video_codec_buf ∧
        (demux_handle_seek st ok).audio_codec_buf = st.audio_codec_buf) ∧
    (demux_handle_seek st ok).audio_clock = st.audio_clock ∧
    (demux_handle_seek st ok).video_clock = st.video_clock ∧
    (demux_handle_seek st ok).audio_buf_size = 0 ∧
    (demux_handle_seek st ok).audio_buf_index = 0 ∧
    (demux_handle_seek st ok).seek_request = false ∧
    (demux_handle_seek st ok).eof = false ∧
    (demux_handle_seek st ok).seeking = false ∧
    (st.audio_dev = true → st.paused = false →
        (demux_handle_seek st ok).device_paused = false) ∧
    (demux_handle_seek st ok).sub_pqs = st.sub_pqs ∧
    (demux_handle_seek st ok).sub_codec_buf = st.sub_codec_buf := by
  obtain ⟨vpq, apq, spqs, vix, aix, vco, vcb, aco, acb, sco, scb,
    adev, dpau, pau, eo, srq, skg, abs, abi, ac, vc⟩ := st
  cases ok <;> cases adev <;> cases pau <;> cases vco <;> cases aco <;>
    simp [demux_handle_seek, pq_flush]

/-- Witness for C2 (amended): at the concrete non-paused state `demuxW2b`, a
successful seek empties the video queue, flushes the open video codec, and
resumes the audio device. -/
theorem demux_seek_spec_witness :
    (demux_handle_seek demuxW2b true).video_pq.items = [] ∧
    (demux_handle_seek demuxW2b true).video_codec_buf = [] ∧
    (demux_handle_seek demuxW2b true).device_paused = false := by
  obtain ⟨hA, hB, hrest⟩ := demux_seek_spec demuxW2b true
  obtain ⟨h1, h2, h3, h4, h5, h6, h7, h8⟩ := hA rfl
  obtain ⟨_, _, _, _, _, _, _, hdev, _, _⟩ := hrest
  exact ⟨h1, h7 rfl, hdev rfl rfl⟩

theorem demux_route_sub_pqs (st : DemuxState) (pkt : Packet) :
    (demux_route st pkt).sub_pqs = st.sub_pqs := by
  unfold demux_route
  split_ifs <;> rfl

theorem demux_run_sub_pqs (st : DemuxState) (pkts : List Packet) :
    (demux_run st pkts).sub_pqs = st.sub_pqs := by
  induction pkts generalizing st with
  | nil => rfl
  | cons p ps ih =>
      show (demux_run (demux_route st p) ps).sub_pqs = st.sub_pqs
      rw [ih, demux_route_sub_pqs]

/-- **C10.** In every iteration of the demux read loop, a packet is enqueued
only when its stream index equals the selected video stream or the selected
audio stream: any other packet leaves the state unchanged (it is dropped).
No routing step ever touches the per-track subtitle queues, so over any
sequence of packets read from the container the subtitle queues are exactly
what they were at open — in particular, if they start empty they remain
empty for the whole session. -/
theorem demux_subtitle_starvation (st : DemuxState) (pkts : List Packet) :
    (∀ pkt : Packet, pkt.stream_index ≠ st.video_stream_idx →
        pkt.stream_index ≠ st.audio_stream_idx → demux_route st pkt = st) ∧
    (∀ pkt : Packet, (demux_route st pkt).sub_pqs = st.sub_pqs) ∧
    (demux_run st pkts).sub_pqs = st.sub_pqs ∧
    ((∀ q ∈ st.sub_pqs, q.items = []) →
        ∀ q ∈ (demux_run st pkts).sub_pqs, q.items = []) := by
  refine ⟨?_, fun pkt => demux_route_sub_pqs st pkt, demux_run_sub_pqs st pkts, ?_⟩
  · intro pkt hv ha
    unfold demux_route
    rw [if_neg hv, if_neg ha]
  · intro hempty
    rw [demux_run_sub_pqs]
    exact hempty

/-- Witness for C10: at the concrete state `demuxW2` (video stream 0, audio
stream 1), a subtitle-stream packet (stream 2) is dropped without changing
the state, and routing it leaves the subtitle queues untouched. -/
theorem demux_subtitle_starvation_witness :
    demux_route demuxW2 pktW2s = demuxW2 ∧
    (demux_run demuxW2 [pktW2s]).sub_pqs = demuxW2.sub_pqs := by
  have h := demux_subtitle_starvation demuxW2 [pktW2s]
  exact ⟨h.1 pktW2s (by decide) (by decide), h.2.2.1⟩

theorem recvFrame_empty (q : PacketQueue) (hq : q.items = []) :
    recvFrame [] q = (none, [], q) := by
  rw [recvFrame]
  unfold pq_get
  rw [hq]
  by_cases hab : q.abort_request = true
  · rw [if_pos hab]
  · rw [if_neg hab]
    rfl

theorem audio_decode_frame_no_data (st : AudioState)
    (hf : st.codec_frames = []) (hq : st.audio_pq.items = []) :
    audio_decode_frame st = (-1, { st with codec_frames := [], audio_pq := st.audio_pq }) := by
  unfold audio_decode_frame
  by_cases hre : st.recv_error = true
  · rw [if_pos hre]
    simp [← hf]
  · rw [if_neg hre, hf, recvFrame_empty st.audio_pq hq]

theorem cb_fill_length (mix : Int → Int) (st : AudioState) (remaining : Nat) :
    (cb_fill mix st remaining).1.length = remaining := by
  induction remaining using Nat.strong_induction_on generalizing st with
  | _ remaining ih =>
    rw [cb_fill]
    split
    · rename_i hr
      simp [hr]
    · split
      · split
        rename_i decoded stres heq
        split
        · simp
        · rename_i hd
          dsimp only
          simp only [List.length_append, List.length_map, List.length_range]
          rw [ih _ (by omega)]
          omega
      · dsimp only
        simp only [List.length_append, List.length_map, List.length_range]
        rw [ih _ (by omega)]
        omega

theorem cb_fill_suffix_zero (mix : Int → Int) (st : AudioState) (remaining : Nat) :
    ∃ k, k ≤ remaining ∧
      (cb_fill mix st remaining).1.drop k = List.replicate (remaining - k) 0 := by
  induction remaining using Nat.strong_induction_on generalizing st with
  | _ remaining ih =>
    rw [cb_fill]
    split
    · rename_i hr
      exact ⟨0, Nat.zero_le _, by simp [hr]⟩
    · split
      · split
        rename_i decoded stres heq
        split
        · exact ⟨0, Nat.zero_le _, by simp⟩
        · rename_i hd
          dsimp only
          obtain ⟨k, hk, hdrop⟩ := ih
            (remaining - min remaining decoded.toNat) (by omega)
            { stres with
              audio_buf_size := decoded.toNat
              audio_buf_index := min remaining decoded.toNat }
          refine ⟨min remaining decoded.toNat + k, by omega, ?_⟩
          rw [← List.drop_drop, List.drop_left' (by simp), hdrop]
          congr 1
          omega
      · dsimp only
        obtain ⟨k, hk, hdrop⟩ := ih
          (remaining - min remaining (st.audio_buf_size - st.audio_buf_index)) (by omega)
          { st with
            audio_buf_index :=
              st.audio_buf_index + min remaining (st.audio_buf_size - st.audio_buf_index) }
        refine ⟨min remaining (st.audio_buf_size - st.audio_buf_index) + k, by omega, ?_⟩
        rw [← List.drop_drop, List.drop_left' (by simp), hdrop]
        congr 1
        omega

/-- **C3.** Every invocation of the audio fill callback yields a complete
result for the requested range (the model is a total function: the fill loop
never blocks — its only queue access is a non-blocking `pq_get` — and
decreases the remaining byte count every iteration).  The whole range is
zeroed first: if playback is paused or a seek is in flight the callback
returns immediately with the output all zeros and the state — decoder,
resampler, clock, and audio packet queue included — untouched; if no decoded
data is available (no buffered codec frame, empty audio queue, exhausted
carry-over buffer) the output is entirely zeros; and in every case the bytes
beyond the last one filled from decoded data are zero. -/
theorem audio_callback_spec (mix : Int → Int) (st : AudioState) (len : Nat) :
    (audio_callback mix st len).1.length = len ∧
    (st.paused = true ∨ st.seek_request = true ∨ st.seeking = true →
        (audio_callback mix st len).1 = List.replicate len 0 ∧
        (audio_callback mix st len).2 = st) ∧
    (st.codec_frames = [] → st.audio_pq.items = [] →
        st.audio_buf_size ≤ st.audio_buf_index →
        (audio_callback mix st len).1 = List.replicate len 0) ∧
    (∃ k, k ≤ len ∧
        (audio_callback mix st len).1.drop k = List.replicate (len - k) 0) := by
  refine ⟨?_, ?_, ?_, ?_⟩
  · unfold audio_callback
    split
    · simp
    · exact cb_fill_length mix st len
  · intro hflag
    unfold audio_callback
    rw [if_pos hflag]
    exact ⟨rfl, rfl⟩
  · intro hf hq hb
    unfold audio_callback
    split
    · rfl
    · by_cases hlen : len = 0
      · subst hlen
        rw [cb_fill, dif_pos rfl]
        simp
      · rw [cb_fill, dif_neg hlen, dif_pos hb, audio_decode_frame_no_data st hf hq]
        simp
  · unfold audio_callback
    split
    · exact ⟨0, Nat.zero_le _, by simp⟩
    · exact cb_fill_suffix_zero mix st len

/-- Witness for C3: on the concrete running state `audioW3` (empty queues, no
buffered frame, drained carry-over buffer) a 4096-byte request is answered
with 4096 zero bytes; on the paused state `audioW3p` a 16-byte request is all
zeros and the state is returned untouched. -/
theorem audio_callback_spec_witness :
    (audio_callback (fun b => b) audioW3 4096).1 = List.replicate 4096 0 ∧
    (audio_callback (fun b => b) audioW3p 16).1 = List.replicate 16 0 ∧
    (audio_callback (fun b => b) audioW3p 16).2 = audioW3p := by
  have h1 := (audio_callback_spec (fun b => b) audioW3 4096).2.2.1 rfl rfl (by decide)
  have h2 := (audio_callback_spec (fun b => b) audioW3p 16).2.1 (Or.inl rfl)
  exact ⟨h1, h2.1, h2.2⟩

/-- **C5.** In `audio_decode_frame`, when the decoder delivers a frame and
the resample path succeeds: if the frame carries a known presentation
timestamp the audio clock is reset to that timestamp multiplied by the
stream time base (otherwise it keeps its previous value), and in both cases
it is then advanced by the converted sample count divided by the device
sample rate. -/
theorem audio_clock_update (st : AudioState) (f : AFrame) (fs : List AFrame)
    (q' : PacketQueue)
    (hrecv : recvFrame st.codec_frames st.audio_pq = (some f, fs, q'))
    (hre : st.recv_error = false)
    (hswr : st.swr_present = true ∨ st.swr_init_ok = true)
    (hconv : 0 ≤ f.converted) :
    (audio_decode_frame st).2.audio_clock =
      (match f.pts with
       | some p => (p : ℚ) * st.time_base
       | none => st.audio_clock) + (f.converted : ℚ) / st.freq := by
  unfold audio_decode_frame
  rw [hre]
  simp only [Bool.false_eq_true, if_false, hrecv]
  rw [if_neg (by rcases hswr with h | h <;> simp [h])]
  rw [if_neg (not_lt.mpr hconv)]

/-- Witness for C5: on the concrete state `audioW5` (clock 0, time base
1/1000, device rate 2) decoding the buffered frame with pts 3000 and one
converted sample resets the clock to 3 and advances it to 3.5. -/
theorem audio_clock_update_witness :
    (audio_decode_frame audioW5).2.audio_clock = 7 / 2 := by
  have h := audio_clock_update audioW5 aframeW5 [] audioW5.audio_pq
    (by simp [recvFrame, audioW5]) rfl (Or.inl rfl) (by norm_num [aframeW5])
  rw [h]
  norm_num [audioW5, aframeW5]

/-- Witness for C1: on a concrete state (frame spacing 0.04 s, clocks in
sync, frame timer due 0.04 s after `now`), the sleep performed equals
`frame_timer - now` = 0.04 s. -/
theorem video_sync_spec_witness :
    (video_sync_tick syncW1 10).2.2 = 1 / 25 := by
  have h := (video_sync_spec syncW1 10).2.2.2.2.2
  simp only [syncW1] at h
  norm_num [max_def] at h
  exact h

theorem ac_resume_sel (st : AudioCycleState) :
    (ac_resume st).aud_selection = st.aud_selection := by
  unfold ac_resume; split <;> rfl

theorem ac_resume_idx (st : AudioCycleState) :
    (ac_resume st).aud_stream_indices = st.aud_stream_indices := by
  unfold ac_resume; split <;> rfl

theorem ac_reopen_device_idx (r : Int) (st : AudioCycleState) :
    (ac_reopen_device r st).aud_stream_indices = st.aud_stream_indices := by
  unfold ac_reopen_device; split <;> rfl

theorem audio_cycle_step (env : AudioCycleEnv) (now : ℚ) (st : AudioCycleState)
    (hcnt : 1 ≤ st.aud_stream_indices.length)
    (hsel : st.aud_selection < st.aud_stream_indices.length)
    (hok : ∀ i ∈ st.aud_stream_indices,
        env.decoder_ok i = true ∧ env.open_ok i = true) :
    (audio_cycle env now st).aud_selection =
      (st.aud_selection + 1) % st.aud_stream_indices.length ∧
    (audio_cycle env now st).aud_stream_indices = st.aud_stream_indices := by
  by_cases h1 : st.aud_stream_indices.length ≤ 1
  · have hc : st.aud_stream_indices.length = 1 := le_antisymm h1 hcnt
    have hs0 : st.aud_selection = 0 := by omega
    unfold audio_cycle
    rw [if_pos h1]
    exact ⟨by simp [hs0, hc], rfl⟩
  · have hlt : (st.aud_selection + 1) % st.aud_stream_indices.length <
        st.aud_stream_indices.length := Nat.mod_lt _ (by omega)
    have hmem : st.aud_stream_indices.getD
        ((st.aud_selection + 1) % st.aud_stream_indices.length) 0 ∈
        st.aud_stream_indices := by
      rw [List.getD_eq_getElem _ 0 hlt]
      exact List.getElem_mem hlt
    obtain ⟨hdec, hopen⟩ := hok _ hmem
    unfold audio_cycle
    rw [if_neg h1]
    dsimp only
    rw [if_neg (by simpa using hdec), if_neg (by simpa using hopen)]
    constructor
    · simp [ac_resume_sel, ac_raise_seek]
    · simp [ac_resume_idx, ac_raise_seek, ac_reopen_device_idx,
        ac_flush_close, ac_pause_device]

theorem audio_cycle_iterate (env : AudioCycleEnv) (now : ℚ) (N : Nat) :
    ∀ st : AudioCycleState,
      st.aud_selection < st.aud_stream_indices.length →
      (∀ i ∈ st.aud_stream_indices,
          env.decoder_ok i = true ∧ env.open_ok i = true) →
      ((audio_cycle env now)^[N] st).aud_selection =
          (st.aud_selection + N) % st.aud_stream_indices.length ∧
      ((audio_cycle env now)^[N] st).aud_stream_indices =
          st.aud_stream_indices := by
  induction N with
  | zero =>
      intro st hsel hok
      exact ⟨by simp [Nat.mod_eq_of_lt hsel], rfl⟩
  | succ n ih =>
      intro st hsel hok
      have hcnt : 1 ≤ st.aud_stream_indices.length := by omega
      have step := audio_cycle_step env now st hcnt hsel hok
      have hsel1 : (audio_cycle env now st).aud_selection <
          (audio_cycle env now st).aud_stream_indices.length := by
        rw [step.1, step.2]
        exact Nat.mod_lt _ (by omega)
      have hok1 : ∀ i ∈ (audio_cycle env now st).aud_stream_indices,
          env.decoder_ok i = true ∧ env.open_ok i = true := by
        rw [step.2]; exact hok
      obtain ⟨ih1, ih2⟩ := ih (audio_cycle env now st) hsel1 hok1
      constructor
      · rw [Function.iterate_succ_apply, ih1, step.1, step.2, Nat.mod_add_mod]
        congr 1
        omega
      · rw [Function.iterate_succ_apply, ih2, step.2]

/-- **C8.** For every valid initial catalog selection and every `N` (assuming
the external decoder opens every cataloged track, per the spec's error
taxonomy those failures only degrade the stream): cycling the audio track
`N` times yields a final selection index equal to
`(initial + N) mod track_count`; and when the catalog holds zero or one
tracks, a cycle call changes nothing but the posted user notice. -/
theorem audio_cycle_congruence (env : AudioCycleEnv) (now : ℚ)
    (st : AudioCycleState) (N : Nat)
    (hsel : st.aud_selection < st.aud_stream_indices.length ∨
        (st.aud_stream_indices.length = 0 ∧ st.aud_selection = 0))
    (hok : ∀ i ∈ st.aud_stream_indices,
        env.decoder_ok i = true ∧ env.open_ok i = true) :
    (1 ≤ st.aud_stream_indices.length →
        ((audio_cycle env now)^[N] st).aud_selection =
          (st.aud_selection + N) % st.aud_stream_indices.length) ∧
    (st.aud_stream_indices.length ≤ 1 →
        audio_cycle env now st =
          { st with
            aud_osd :=
              if st.aud_stream_indices.length = 0 then "No audio tracks"
              else "Only one audio track"
            aud_osd_until := now + 2 }) := by
  constructor
  · intro hcnt
    have hsel' : st.aud_selection < st.aud_stream_indices.length := by
      rcases hsel with h | ⟨h0, _⟩
      · exact h
      · omega
    exact (audio_cycle_iterate env now N st hsel' hok).1
  · intro hle
    unfold audio_cycle
    rw [if_pos hle]

/-- Witness for C8: on a two-track catalog starting at track 0 with working
decoders, three cycles end at track `(0 + 3) mod 2 = 1`. -/
theorem audio_cycle_congruence_witness :
    ((audio_cycle audEnvW 0)^[3] audW8).aud_selection = 1 := by
  have h := (audio_cycle_congruence audEnvW 0 audW8 3
    (Or.inl (by decide)) (by decide)).1 (by decide)
  rw [h]
  decide

theorem sub_cycle_spec_aux (env : SubEnv) (now : ℚ) (st : SubState)
    (h0 : ¬st.sub_stream_indices.length = 0)
    (hz : ¬(st.sub_selection + 1) % (st.sub_stream_indices.length + 1) = 0) :
    (sub_cycle env now st).sub_selection =
      (st.sub_selection + 1) % (st.sub_stream_indices.length + 1) ∧
    (sub_cycle env now st).seek_request = st.seek_request ∧
    (sub_cycle env now st).sub_valid = false ∧
    (sub_cycle env now st).sub_text = "" := by
  unfold sub_cycle
  rw [if_neg h0]
  dsimp only
  rw [if_neg hz]
  unfold sub_open_codec sub_close_codec
  dsimp only
  split_ifs <;> exact ⟨rfl, rfl, rfl, rfl⟩

/-- **C9.** Subtitle track cycling advances the selection cyclically
`Off → track 1 … track N → Off` — the new selection is
`(selection + 1) mod (N + 1)` for a catalog of `N` tracks (with `N = 0` the
call posts a notice and the selection stays Off) — never raises a seek
request, and clears any currently displayed cue immediately upon switching. -/
theorem sub_cycle_spec (env : SubEnv) (now : ℚ) (st : SubState)
    (hsel : st.sub_selection ≤ st.sub_stream_indices.length) :
    (sub_cycle env now st).sub_selection =
      (st.sub_selection + 1) % (st.sub_stream_indices.length + 1) ∧
    (sub_cycle env now st).seek_request = st.seek_request ∧
    (1 ≤ st.sub_stream_indices.length →
        (sub_cycle env now st).sub_valid = false ∧
        (sub_cycle env now st).sub_text = "") := by
  by_cases h0 : st.sub_stream_indices.length = 0
  · have hs : st.sub_selection = 0 := by omega
    unfold sub_cycle
    rw [if_pos h0]
    exact ⟨by simp [hs, h0], rfl, fun h => by omega⟩
  · by_cases hz : (st.sub_selection + 1) % (st.sub_stream_indices.length + 1) = 0
    · unfold sub_cycle
      rw [if_neg h0]
      dsimp only
      rw [if_pos hz]
      unfold sub_close_codec
      exact ⟨by rw [hz], rfl, fun h => ⟨rfl, rfl⟩⟩
    · obtain ⟨h1, h2, h3, h4⟩ := sub_cycle_spec_aux env now st h0 hz
      exact ⟨h1, h2, fun h => ⟨h3, h4⟩⟩

/-- Witness for C9: with two subtitle tracks and the selection Off, cycling
selects track 1, does not raise a seek, and clears the displayed cue. -/
theorem sub_cycle_spec_witness :
    (sub_cycle subEnvW 0 subW9).sub_selection = 1 ∧
    (sub_cycle subEnvW 0 subW9).seek_request = false ∧
    (sub_cycle subEnvW 0 subW9).sub_valid = false := by
  have h := sub_cycle_spec subEnvW 0 subW9 (by decide)
  refine ⟨by rw [h.1]; decide, h.2.1, (h.2.2 (by decide)).1⟩

theorem sub_scan_nil (tb now : ℚ) (st : SubState) (q : PacketQueue)
    (hq : q.items = []) : sub_scan tb now st q = (st, q) := by
  rw [sub_scan]
  unfold pq_get
  rw [hq]
  by_cases hab : q.abort_request = true
  · rw [if_pos hab]
  · rw [if_neg hab]
    rfl

theorem sub_scan_abort (tb now : ℚ) (st : SubState) (q : PacketQueue)
    (hab : q.abort_request = true) : sub_scan tb now st q = (st, q) := by
  rw [sub_scan]
  unfold pq_get
  rw [if_pos hab]

theorem sub_scan_cons_none (tb now : ℚ) (st : SubState) (q : PacketQueue)
    (pkt : Packet) (rest : List Packet)
    (hab : q.abort_request = false) (hq : q.items = pkt :: rest)
    (hcue : pkt.cue = none) :
    sub_scan tb now st q =
      sub_scan tb now st
        { q with items := rest, nb_packets := q.nb_packets - 1, size := q.size - pkt.size } := by
  have hpq : pq_get q false =
      (PopResult.got pkt,
        { q with items := rest, nb_packets := q.nb_packets - 1, size := q.size - pkt.size }) := by
    unfold pq_get
    rw [if_neg (by simp [hab]), hq]
  rw [sub_scan]
  split
  · rename_i p q' heq
    rw [hpq] at heq
    injection heq with e1 e2
    injection e1 with e3
    subst e3
    subst e2
    rw [hcue]
  · rename_i fst q' hnc heq
    rw [hpq] at heq
    injection heq with e1 e2
    exact (hnc pkt e1.symm).elim

theorem sub_scan_cons_some (tb now : ℚ) (st : SubState) (q : PacketQueue)
    (pkt : Packet) (rest : List Packet) (c : SubCue)
    (hab : q.abort_request = false) (hq : q.items = pkt :: rest)
    (hcue : pkt.cue = some c) :
    sub_scan tb now st q =
      (if c.text = "" then
        sub_scan tb now st
          { q with items := rest, nb_packets := q.nb_packets - 1, size := q.size - pkt.size }
      else if (sub_window pkt c tb).2 < now then
        sub_scan tb now st
          { q with items := rest, nb_packets := q.nb_packets - 1, size := q.size - pkt.size }
      else
        ({ st with
            sub_text := c.text
            sub_start_pts := (sub_window pkt c tb).1
            sub_end_pts := (sub_window pkt c tb).2
            sub_valid := true },
          { q with items := rest, nb_packets := q.nb_packets - 1, size := q.size - pkt.size })) := by
  have hpq : pq_get q false =
      (PopResult.got pkt,
        { q with items := rest, nb_packets := q.nb_packets - 1, size := q.size - pkt.size }) := by
    unfold pq_get
    rw [if_neg (by simp [hab]), hq]
  rw [sub_scan]
  split
  · rename_i p q' heq
    rw [hpq] at heq
    injection heq with e1 e2
    injection e1 with e3
    subst e3
    subst e2
    rw [hcue]
  · rename_i fst q' hnc heq
    rw [hpq] at heq
    injection heq with e1 e2
    exact (hnc pkt e1.symm).elim

theorem sub_scan_end (tb now : ℚ) (st : SubState) (hv : st.sub_valid = false) :
    ∀ (n : Nat) (q : PacketQueue), q.items.length ≤ n →
      (sub_scan tb now st q).1.sub_valid = true →
      now ≤ (sub_scan tb now st q).1.sub_end_pts := by
  intro n
  induction n with
  | zero =>
      intro q hlen hvalid
      have hnil : q.items = [] := by
        cases hqi : q.items with
        | nil => rfl
        | cons a as => rw [hqi] at hlen; simp at hlen
      rw [sub_scan_nil tb now st q hnil] at hvalid
      exact absurd hvalid (by simp [hv])
  | succ n ih =>
      intro q hlen hvalid
      cases hqi : q.items with
      | nil =>
          rw [sub_scan_nil tb now st q hqi] at hvalid
          exact absurd hvalid (by simp [hv])
      | cons pkt rest =>
          by_cases hab : q.abort_request = true
          · rw [sub_scan_abort tb now st q hab] at hvalid
            exact absurd hvalid (by simp [hv])
          · have hab' : q.abort_request = false := by simpa using hab
            have hlen' : rest.length ≤ n := by
              rw [hqi] at hlen
              simpa using hlen
            cases hcue : pkt.cue with
            | none =>
                rw [sub_scan_cons_none tb now st q pkt rest hab' hqi hcue]
                  at hvalid ⊢
                exact ih _ (by simpa using hlen') hvalid
            | some c =>
                rw [sub_scan_cons_some tb now st q pkt rest c hab' hqi hcue]
                  at hvalid ⊢
                by_cases ht : c.text = ""
                · rw [if_pos ht] at hvalid ⊢
                  exact ih _ (by simpa using hlen') hvalid
                · rw [if_neg ht] at hvalid ⊢
                  by_cases hw : (sub_window pkt c tb).2 < now
                  · rw [if_pos hw] at hvalid ⊢
                    exact ih _ (by simpa using hlen') hvalid
                  · rw [if_neg hw] at hvalid ⊢
                    exact not_lt.mp hw

theorem sub_scan_first (tb now : ℚ) (st : SubState) :
    ∀ (pre : List Packet) (q : PacketQueue) (pkt : Packet) (c : SubCue)
      (post : List Packet),
      q.abort_request = false →
      q.items = pre ++ pkt :: post →
      (∀ p ∈ pre, sub_skipb tb now p = true) →
      pkt.cue = some c →
      c.text ≠ "" →
      ¬((sub_window pkt c tb).2 < now) →
      (sub_scan tb now st q).1 =
        { st with
          sub_text := c.text
          sub_start_pts := (sub_window pkt c tb).1
          sub_end_pts := (sub_window pkt c tb).2
          sub_valid := true } ∧
      (sub_scan tb now st q).2.items = post := by
  intro pre
  induction pre with
  | nil =>
      intro q pkt c post hab hq hpre hcue htext hkeep
      rw [List.nil_append] at hq
      rw [sub_scan_cons_some tb now st q pkt post c hab hq hcue,
        if_neg htext, if_neg hkeep]
      exact ⟨rfl, rfl⟩
  | cons p pre' ih =>
      intro q pkt c post hab hq hpre hcue htext hkeep
      rw [List.cons_append] at hq
      have hpre' : ∀ x ∈ pre', sub_skipb tb now x = true :=
        fun x hx => hpre x (List.mem_cons_of_mem p hx)
      cases hcue' : p.cue with
      | none =>
          rw [sub_scan_cons_none tb now st q p (pre' ++ pkt :: post) hab hq
            hcue']
          exact ih _ pkt c post hab rfl hpre' hcue htext hkeep
      | some c' =>
          rw [sub_scan_cons_some tb now st q p (pre' ++ pkt :: post) c' hab hq
            hcue']
          have hskip := hpre p (List.mem_cons_self p pre')
          by_cases ht : c'.text = ""
          · rw [if_pos ht]
            exact ih _ pkt c post hab rfl hpre' hcue htext hkeep
          · rw [if_neg ht]
            have hw : (sub_window p c' tb).2 < now := by
              by_contra hnw
              unfold sub_skipb at hskip
              rw [hcue'] at hskip
              simp [ht, hnw] at hskip
            rw [if_pos hw]
            exact ih _ pkt c post hab rfl hpre' hcue htext hkeep

/-- **C7.** When selecting the next subtitle cue (active track, valid
selection): (1) whenever `sub_decode_pending` leaves a cue on display, its
end time is not earlier than "now" (the audio master clock, or the video
clock when no audio track is active) — an expired candidate is never kept;
(2) the display window's end uses the explicit `end_display_time` when
present, else the packet duration when positive, else the fixed 3-second
fallback after the start; (3) when the current cue has lapsed and the active
track's queue holds skippable packets (no displayable text or already
expired) followed by a non-expired candidate, that first non-expired
candidate is kept — its text and window become the displayed cue — and all
remaining packets stay queued. -/
theorem sub_decode_pending_spec (env : SubEnv) (st : SubState) :
    (¬(st.sub_active_idx < 0 ∨ st.sub_codec_open = false) →
     ¬(st.sub_selection = 0 ∨ st.sub_stream_indices.length < st.sub_selection) →
     (sub_decode_pending env st).sub_valid = true →
     sub_now st ≤ (sub_decode_pending env st).sub_end_pts) ∧
    (∀ (pkt : Packet) (c : SubCue) (tb : ℚ),
        (c.end_display_time ≠ 0 →
          (sub_window pkt c tb).2 =
            sub_pkt_pts pkt tb + (c.end_display_time : ℚ) / 1000) ∧
        (c.end_display_time = 0 → 0 < pkt.duration →
          (sub_window pkt c tb).2 =
            sub_pkt_pts pkt tb + (pkt.duration : ℚ) * tb) ∧
        (c.end_display_time = 0 → pkt.duration ≤ 0 →
          (sub_window pkt c tb).2 = (sub_window pkt c tb).1 + 3)) ∧
    (∀ (pre post : List Packet) (pkt : Packet) (c : SubCue),
        ¬(st.sub_active_idx < 0 ∨ st.sub_codec_open = false) →
        ¬(st.sub_selection = 0 ∨
            st.sub_stream_indices.length < st.sub_selection) →
        ¬(st.sub_valid = true ∧ sub_now st ≤ st.sub_end_pts) →
        (st.sub_pqs.getD (st.sub_selection - 1) pq_init).abort_request = false →
        (st.sub_pqs.getD (st.sub_selection - 1) pq_init).items =
          pre ++ pkt :: post →
        (∀ p ∈ pre,
            sub_skipb (env.time_base st.sub_active_idx) (sub_now st) p = true) →
        pkt.cue = some c →
        c.text ≠ "" →
        ¬((sub_window pkt c (env.time_base st.sub_active_idx)).2 < sub_now st) →
        st.sub_selection - 1 < st.sub_pqs.length →
        (sub_decode_pending env st).sub_valid = true ∧
        (sub_decode_pending env st).sub_text = c.text ∧
        (sub_decode_pending env st).sub_start_pts =
          (sub_window pkt c (env.time_base st.sub_active_idx)).1 ∧
        (sub_decode_pending env st).sub_end_pts =
          (sub_window pkt c (env.time_base st.sub_active_idx)).2 ∧
        ((sub_decode_pending env st).sub_pqs.getD
            (st.sub_selection - 1) pq_init).items = post) := by
  refine ⟨?_, ?_, ?_⟩
  · intro hg1 hg2 hvalid
    unfold sub_decode_pending at hvalid ⊢
    rw [if_neg hg1, if_neg hg2] at hvalid ⊢
    by_cases hcur : st.sub_valid = true ∧ sub_now st ≤ st.sub_end_pts
    · rw [if_pos hcur] at hvalid ⊢
      exact hcur.2
    · rw [if_neg hcur] at hvalid ⊢
      exact sub_scan_end (env.time_base st.sub_active_idx) (sub_now st)
        { st with sub_valid := false } rfl _ _ (le_refl _) hvalid
  · intro pkt c tb
    refine ⟨?_, ?_, ?_⟩
    · intro hne
      unfold sub_window
      dsimp only
      rw [if_neg (fun h => hne h.1), if_neg hne]
    · intro h0 hd
      unfold sub_window
      dsimp only
      rw [if_pos ⟨h0, hd⟩]
    · intro h0 hd
      unfold sub_window
      dsimp only
      rw [if_neg (fun h => absurd h.2 (not_lt.mpr hd)), if_pos h0]
  · intro pre post pkt c hg1 hg2 hcur hab hq hpre hcue htext hkeep hlen
    have hfirst := sub_scan_first (env.time_base st.sub_active_idx)
      (sub_now st) { st with sub_valid := false } pre
      (st.sub_pqs.getD (st.sub_selection - 1) pq_init) pkt c post
      hab hq hpre hcue htext hkeep
    unfold sub_decode_pending
    rw [if_neg hg1, if_neg hg2]
    dsimp only
    rw [if_neg hcur]
    refine ⟨?_, ?_, ?_, ?_, ?_⟩
    · rw [hfirst.1]
    · rw [hfirst.1]
    · rw [hfirst.1]
    · rw [hfirst.1]
    · rw [List.getD_eq_getElem _ _ (by simpa using hlen),
        List.getElem_set_self (by simpa using hlen)]
      exact hfirst.2

/-- Witness for C7: on the concrete state `subW7` (master clock 11 s, queue
holding an expired candidate ending at 1.5 s, a live candidate with window
10–12 s, and a trailing packet), the live candidate is kept — text "hello",
end 12 s ≥ now — and the trailing packet stays queued. -/
theorem sub_decode_pending_spec_witness :
    (sub_decode_pending subEnvW subW7).sub_valid = true ∧
    (sub_decode_pending subEnvW subW7).sub_text = "hello" ∧
    (sub_decode_pending subEnvW subW7).sub_end_pts = 12 ∧
    ((sub_decode_pending subEnvW subW7).sub_pqs.getD 0 pq_init).items =
      [subPktW7t] := by
  have h := (sub_decode_pending_spec subEnvW subW7).2.2
    [subPktW7e] [subPktW7t] subPktW7 subCueW7
    (by decide) (by decide)
    (by intro hcur; simp [subW7] at hcur)
    rfl rfl
    (by
      intro p hp
      simp only [List.mem_singleton] at hp
      subst hp
      norm_num [sub_skipb, sub_window, sub_pkt_pts, subPktW7e, subCueW7e,
        subEnvW, subW7, sub_now])
    rfl (by decide)
    (by norm_num [sub_window, sub_pkt_pts, subPktW7, subCueW7, subEnvW,
      subW7, sub_now])
    (by decide)
  refine ⟨h.1, ?_, ?_, h.2.2.2.2⟩
  · rw [h.2.1]
    rfl
  · rw [h.2.2.2.1]
    norm_num [sub_window, sub_pkt_pts, subPktW7, subCueW7, subEnvW, subW7]

end DSVP
